import Mathlib

namespace Onlook

/-!
Verification development for the action/history subsystem of the onlook
editor.  The definitions below are a shallow embedding of:

  - apps/web/client/src/components/store/editor/history/index.ts
    (HistoryManager: undo/redo stacks, transaction buffering),
  - the ActionManager dispatcher (run / updateStyle / moveElement /
    removeElement and the token-resolution loop),
  - apps/web/client/src/components/store/editor/style/index.ts
    (StyleManager.getUpdateStyleAction and its default-value fallbacks).

JavaScript records such as Record<string, StyleChange> are embedded as
association lists, JS arrays used as stacks (push/pop at the end) as Lean
lists with append at the end, and undefined-or-T values as Option.
External collaborators (frame registry, rendered-view gateway, theme token
resolver) are oracle functions collected in an Env structure, per the
interface contracts the code consumes.  Await points are modelled as
sequential composition: the code runs on a single logical task queue and
each operation is awaited to completion by its caller.
-/

/-- StyleChangeType from @onlook/models/style: `value` means the string is a
literal, `custom` means it is a symbolic design-token name. -/
inductive StyleChangeType where
  | value
  | custom
  deriving DecidableEq, Repr

/-- StyleChange: a style value string tagged with its kind.  The source field
`type` is embedded as `ty`. -/
structure StyleChange where
  value : String
  ty : StyleChangeType
  deriving DecidableEq, Repr

/-- Change<Record<string, StyleChange>>: before/after halves, each an
association list from CSS property name to StyleChange. -/
structure StyleRecordChange where
  original : List (String × StyleChange)
  updated : List (String × StyleChange)
  deriving DecidableEq, Repr

/-- StyleActionTarget: one target of an update-style action.  `oid` embeds the
nullable style-target id used by the transaction merge rule. -/
structure StyleActionTarget where
  frameId : String
  domId : String
  oid : Option String
  change : StyleRecordChange
  deriving DecidableEq, Repr

/-- Generic action target carrying the frame and dom ids. -/
structure ActionTarget where
  frameId : String
  domId : String
  deriving DecidableEq, Repr

/-- ActionLocation from @onlook/models/actions (the model package is not part
of the shown sources; only the fields the shown code reads are embedded).
The dispatcher passes the location opaquely to the gateway. -/
structure ActionLocation where
  targetDomId : String
  deriving DecidableEq, Repr

/-- Index-carrying location of a move-element action.  The dispatcher reads
`location.index`; `originalIndex` is the prior index kept for undo. -/
structure IndexLocation where
  index : Nat
  originalIndex : Nat
  deriving DecidableEq, Repr

/-- The closed Action variant set from @onlook/models/actions, with the
payload fields the shown code destructures. -/
inductive Action where
  | updateStyle (targets : List StyleActionTarget)
  | insertElement (targets : List ActionTarget) (element : String)
      (editTextContent : Option String) (location : ActionLocation)
  | removeElement (targets : List ActionTarget) (element : String)
      (location : ActionLocation)
  | moveElement (targets : List ActionTarget) (location : IndexLocation)
  | editText (targets : List ActionTarget) (originalContent : String)
      (newContent : String)
  | groupElements (parent : ActionTarget) (container : String)
      (children : List ActionTarget)
  | ungroupElements (parent : ActionTarget) (container : String)
      (children : List ActionTarget)
  | insertImage (targets : List ActionTarget) (image : String)
  | removeImage (targets : List ActionTarget) (image : String)
  | writeCode (description : String)
  deriving DecidableEq, Repr

/-- TransactionState from history/index.ts: NOT_IN_TRANSACTION or
IN_TRANSACTION with the ordered buffer of actions. -/
inductive TransactionState where
  | notInTransaction
  | inTransaction (actions : List Action)
  deriving DecidableEq, Repr

/-- The mutable state owned by HistoryManager: the two stacks and the
transaction state.  JS array push appends at the end, pop removes the last
element, so the top of each stack is the last list element. -/
structure HistoryState where
  undoStack : List Action
  redoStack : List Action
  tx : TransactionState
  deriving DecidableEq, Repr

/-- Key used by the transaction merge rule: the frameId/domId/style-target-id
triple of one target. -/
def targetKey (t : StyleActionTarget) : String × String × Option String :=
  (t.frameId, t.domId, t.oid)

/-- Merge of two consecutive update-style actions on the same target set:
keep the earlier original half, take the later updated half.

Modelled from the spec: `updateTransactionActions` lives in
history/helpers.ts, which is not among the shown sources.  The spec states
that consecutive UpdateStyle actions on the same frameId/domId/styleTargetId
set merge by replacing the updated half of the last buffered entry with the
updated half of the new action, keeping the original original half. -/
def mergeUpdateStyle (prev next : Action) : Option Action :=
  match prev, next with
  | .updateStyle ts1, .updateStyle ts2 =>
    if ts1.map targetKey = ts2.map targetKey then
      some (.updateStyle (List.zipWith
        (fun t1 t2 =>
          { t1 with change := { original := t1.change.original,
                                updated := t2.change.updated } })
        ts1 ts2))
    else none
  | _, _ => none

/-- Modelled from the spec: the buffered-push rule of history/helpers.ts
(not among the shown sources).  A push inside a transaction either merges
into the last buffered entry (mergeable kind, same target set) or appends. -/
def updateTransactionActions (acts : List Action) (a : Action) : List Action :=
  match acts.getLast? with
  | none => acts ++ [a]
  | some last =>
    match mergeUpdateStyle last a with
    | some merged => acts.dropLast ++ [merged]
    | none => acts ++ [a]

/-- Modelled from the spec: `undoAction` of history/helpers.ts (not among the
shown sources).  The inverse action: style changes swap their halves,
insert and remove are mutual inverses, move restores the prior index,
edit-text restores the prior content, group and ungroup are mutual
inverses. -/
def undoAction : Action → Action
  | .updateStyle ts =>
      .updateStyle (ts.map (fun t =>
        { t with change := { original := t.change.updated,
                             updated := t.change.original } }))
  | .insertElement ts element _ loc => .removeElement ts element loc
  | .removeElement ts element loc => .insertElement ts element none loc
  | .moveElement ts loc =>
      .moveElement ts { index := loc.originalIndex, originalIndex := loc.index }
  | .editText ts original new => .editText ts new original
  | .groupElements p c ch => .ungroupElements p c ch
  | .ungroupElements p c ch => .groupElements p c ch
  | .insertImage ts img => .removeImage ts img
  | .removeImage ts img => .insertImage ts img
  | .writeCode d => .writeCode d

/-- Modelled from the spec: `transformRedoAction` of history/helpers.ts (not
among the shown sources).  The forward replay is primarily the identity on
content and literal values. -/
def transformRedoAction (a : Action) : Action := a

/-- HistoryManager.startTransaction: unconditionally installs a fresh
IN_TRANSACTION state with an empty buffer. -/
def startTransaction (st : HistoryState) : HistoryState :=
  { st with tx := .inTransaction [] }

/-- HistoryManager.push: inside a transaction the action is buffered through
updateTransactionActions; otherwise a non-empty redo stack is cleared and
the action is appended to the undo stack.  The code-write and analytics
calls are external effects with no history state. -/
def pushState (st : HistoryState) (a : Action) : HistoryState :=
  match st.tx with
  | .inTransaction acts =>
      { st with tx := .inTransaction (updateTransactionActions acts a) }
  | .notInTransaction =>
      let st1 := if st.redoStack.length > 0 then { st with redoStack := [] } else st
      { st1 with undoStack := st1.undoStack ++ [a] }

/-- HistoryManager.commitTransaction: when not in a transaction or the buffer
is empty, just reset to NOT_IN_TRANSACTION; otherwise reset first, then
push each buffered action through the normal push path in order. -/
def commitTransaction (st : HistoryState) : HistoryState :=
  match st.tx with
  | .notInTransaction => { st with tx := .notInTransaction }
  | .inTransaction acts =>
    if acts.length = 0 then { st with tx := .notInTransaction }
    else List.foldl pushState { st with tx := .notInTransaction } acts

/-- HistoryManager.undo: commit any open transaction, pop the undo stack
(returning none when empty), push the popped action itself onto the redo
stack, and return the inverse action.  The source invokes commitTransaction
without awaiting it; the model treats it as completing before the pop, per
the sequential single-queue model. -/
def undoState (st : HistoryState) : HistoryState × Option Action :=
  let st1 := match st.tx with
    | .inTransaction _ => commitTransaction st
    | .notInTransaction => st
  match st1.undoStack.getLast? with
  | none => (st1, none)
  | some top =>
      ({ st1 with undoStack := st1.undoStack.dropLast,
                  redoStack := st1.redoStack ++ [top] },
       some (undoAction top))

/-- HistoryManager.redo: commit any open transaction, pop the redo stack
(returning none when empty), push the transformed action onto the undo
stack, and return it. -/
def redoState (st : HistoryState) : HistoryState × Option Action :=
  let st1 := match st.tx with
    | .inTransaction _ => commitTransaction st
    | .notInTransaction => st
  match st1.redoStack.getLast? with
  | none => (st1, none)
  | some top =>
      let a := transformRedoAction top
      ({ st1 with redoStack := st1.redoStack.dropLast,
                  undoStack := st1.undoStack ++ [a] },
       some a)

/-- HistoryManager.clear: empties both stacks; the transaction state is not
touched. -/
def clearState (st : HistoryState) : HistoryState :=
  { st with undoStack := [], redoStack := [] }

/-- The defined and computed style maps of a DOM element snapshot. -/
structure DomElementStyles where
  defined : List (String × String)
  computed : List (String × String)
  deriving DecidableEq, Repr

/-- DomElement from @onlook/models (the model package is not among the shown
sources); only the fields the shown code reads are embedded.  `styles` is
nullable in the source, hence Option. -/
structure DomElement where
  frameId : String
  domId : String
  oid : Option String
  instanceId : Option String
  styles : Option DomElementStyles
  deriving DecidableEq, Repr

/-- The per-frame rendered-view gateway handle (frameData.view).  Only the
mutation primitives exercised by the modelled dispatch paths are embedded;
a `none` result signals an operation failure for that target. -/
structure FrameView where
  updateStyle : String → StyleRecordChange → Option DomElement
  removeElement : ActionLocation → Option DomElement
  moveElement : String → Nat → Option DomElement

/-- The external collaborators the dispatcher consults: the frame registry
(editorEngine.frames.get) and the theme token resolver
(editorEngine.theme.getColorByName). -/
structure Env where
  frames : String → Option FrameView
  getColorByName : String → Option String

/-- Case-insensitive prefix test over character lists: each pattern position
lists the two accepted characters. -/
def startsWithCI : List (Char × Char) → List Char → Bool
  | [], _ => true
  | _ :: _, [] => false
  | (lo, up) :: ps, c :: cs => (c = lo || c = up) && startsWithCI ps cs

/-- The literal-color test of part_000 line 134: the regular expression
test of the pattern hash-or-rgb-or-hsl anchored at the start,
case-insensitive, embedded as a character-list prefix check. -/
def isColorSyntax (s : String) : Bool :=
  startsWithCI [('#', '#')] s.data ||
  startsWithCI [('r', 'R'), ('g', 'G'), ('b', 'B')] s.data ||
  startsWithCI [('h', 'H'), ('s', 'S'), ('l', 'L')] s.data

/-- The per-entry token-resolution step of ActionManager.updateStyle
(part_000 lines 128-139).  A Custom entry is rewritten to the resolved
literal when getColorByName returns a truthy (non-empty) string; otherwise,
when the raw string already looks like a literal color, only its kind is
reclassified to Value; otherwise the entry is left unchanged (the source
logs a warning).  Value entries pass through untouched. -/
def convertEntry (resolve : String → Option String) (v : StyleChange) : StyleChange :=
  match v.ty with
  | .value => v
  | .custom =>
    match resolve v.value with
    | some res =>
        if res = "" then
          if isColorSyntax v.value then { v with ty := .value } else v
        else { value := res, ty := .value }
    | none => if isColorSyntax v.value then { v with ty := .value } else v

/-- The converted change sent to the gateway (part_000 lines 126-146): the
original half is passed through, each updated entry goes through
convertEntry. -/
def convertChange (resolve : String → Option String) (c : StyleRecordChange) :
    StyleRecordChange :=
  { original := c.original,
    updated := c.updated.map (fun p => (p.1, convertEntry resolve p.2)) }

/-- Outcome of the updateStyle target loop: `aborted` when a missing frame
made the method return early (the snapshot refresh is never reached, so
nothing is delivered), `completed` with the collected snapshots otherwise. -/
inductive UpdateStyleResult where
  | aborted
  | completed (snapshots : List DomElement)
  deriving DecidableEq, Repr

/-- The target loop of ActionManager.updateStyle (part_000 lines 117-162).
Returns the target list as it stands after the loop — token resolution
assigns into the very StyleChange objects held by the action, so processed
targets carry converted updated entries — together with the loop outcome.
A missing frame returns early (aborting the remaining targets, delivering
no snapshots); a `none` gateway result only skips that target. -/
def updateStyleGo (env : Env) :
    List StyleActionTarget → List StyleActionTarget × UpdateStyleResult
  | [] => ([], .completed [])
  | t :: ts =>
    match env.frames t.frameId with
    | none => (t :: ts, .aborted)
    | some fv =>
      let conv := convertChange env.getColorByName t.change
      let t2 := { t with change := conv }
      match fv.updateStyle t.domId conv with
      | none =>
        let r := updateStyleGo env ts
        (t2 :: r.1, r.2)
      | some el =>
        let r := updateStyleGo env ts
        match r.2 with
        | .aborted => (t2 :: r.1, .aborted)
        | .completed els => (t2 :: r.1, .completed (el :: els))

/-- ActionManager.run on an UpdateStyle action, in a state with no open
transaction: history.push appends the action object to the undo stack, and
dispatch then mutates that same object in place (the assignments at
part_000 lines 132-135 write through the references obtained from the
stored change), so after dispatch the stored stack top holds the converted
target list returned by the loop. -/
def runUpdateStyleNoTx (env : Env) (st : HistoryState)
    (ts : List StyleActionTarget) : HistoryState × UpdateStyleResult :=
  let st1 := pushState st (.updateStyle ts)
  let r := updateStyleGo env ts
  ({ st1 with undoStack := st1.undoStack.dropLast ++ [Action.updateStyle r.1] },
   r.2)

/-- The target loop of ActionManager.moveElement (part_000 lines 215-229),
recorded as the trace of gateway calls: each processed target contributes
its domId with the gateway result.  A missing frame or a `none` result
returns from the method, so no later target appears in the trace. -/
def moveElementGo (env : Env) (index : Nat) :
    List ActionTarget → List (String × Option DomElement)
  | [] => []
  | t :: ts =>
    match env.frames t.frameId with
    | none => []
    | some fv =>
      match fv.moveElement t.domId index with
      | none => [(t.domId, none)]
      | some el => (t.domId, some el) :: moveElementGo env index ts

/-- The target loop of ActionManager.removeElement (part_000 lines 194-213),
recorded as the trace of gateway calls.  The gateway is invoked with the
action-level location for every target; a missing frame or a `none` result
returns from the method. -/
def removeElementGo (env : Env) (location : ActionLocation) :
    List ActionTarget → List (String × Option DomElement)
  | [] => []
  | t :: ts =>
    match env.frames t.frameId with
    | none => []
    | some fv =>
      match fv.removeElement location with
      | none => [(t.domId, none)]
      | some el => (t.domId, some el) :: removeElementGo env location ts

/-- The snapshots actually handed to refreshAndClickMutatedElement out of a
structural-edit trace: the successful gateway results. -/
def traceSnapshots (tr : List (String × Option DomElement)) : List DomElement :=
  tr.filterMap (fun p => p.2)

/-- StyleMode from style/index.ts; the source names are Instance and Root. -/
inductive StyleMode where
  | inst
  | root
  deriving DecidableEq, Repr

/-- The per-property default table of StyleManager.getDefaultStyleValue
(style/index.ts lines 205-253), transcribed verbatim. -/
def defaultStyleValues : List (String × String) :=
  [("opacity", "1"),
   ("visibility", "visible"),
   ("display", "block"),
   ("color", "rgb(0, 0, 0)"),
   ("backgroundColor", "rgba(0, 0, 0, 0)"),
   ("fontSize", "16px"),
   ("fontWeight", "400"),
   ("lineHeight", "normal"),
   ("textAlign", "start"),
   ("width", "auto"),
   ("height", "auto"),
   ("margin", "0px"),
   ("padding", "0px"),
   ("border", "0px none rgb(0, 0, 0)"),
   ("borderRadius", "0px"),
   ("marginTop", "0px"),
   ("marginRight", "0px"),
   ("marginBottom", "0px"),
   ("marginLeft", "0px"),
   ("paddingTop", "0px"),
   ("paddingRight", "0px"),
   ("paddingBottom", "0px"),
   ("paddingLeft", "0px"),
   ("top", "auto"),
   ("right", "auto"),
   ("bottom", "auto"),
   ("left", "auto"),
   ("position", "static"),
   ("zIndex", "auto"),
   ("transform", "none"),
   ("transformOrigin", "50% 50% 0px"),
   ("boxShadow", "none"),
   ("textDecoration", "none solid rgb(0, 0, 0)"),
   ("textDecorationLine", "none"),
   ("textTransform", "none"),
   ("letterSpacing", "normal"),
   ("wordSpacing", "normal"),
   ("fontFamily", "inherit"),
   ("fontStyle", "normal"),
   ("fontVariant", "normal"),
   ("borderWidth", "0px"),
   ("borderStyle", "none"),
   ("borderColor", "rgb(0, 0, 0)"),
   ("borderTopWidth", "0px"),
   ("borderRightWidth", "0px"),
   ("borderBottomWidth", "0px"),
   ("borderLeftWidth", "0px")]

/-- StyleManager.getDefaultStyleValue: the table entry for the property, with
the JS falsy-fallback to the string "initial" for a missing (or empty)
entry. -/
def getDefaultStyleValue (style : String) : String :=
  match defaultStyleValues.lookup style with
  | some v => if v = "" then "initial" else v
  | none => "initial"

/-- StyleManager.getFreshStyleValue (style/index.ts lines 178-201): the
defined value if present, else the computed value; when the result is
absent or the empty string, fall back to getDefaultStyleValue. -/
def getFreshStyleValue (styles : Option DomElementStyles) (style : String) :
    String :=
  let definedValue := styles.bind (fun s => s.defined.lookup style)
  let computedValue := styles.bind (fun s => s.computed.lookup style)
  let currentValue := definedValue.orElse (fun _ => computedValue)
  match currentValue with
  | none => getDefaultStyleValue style
  | some v => if v = "" then getDefaultStyleValue style else v

/-- StyleManager.getUpdateStyleAction (style/index.ts lines 97-176): filter
the selected elements by the requested domIds (no filter when the list is
empty), then build one target per element.  The updated half tags every
requested property value with the requested change kind (Custom only when
Custom is asked for); the original half reads getFreshStyleValue and is
always tagged Value.  The style record argument is embedded as an
association list of property/value strings. -/
def getUpdateStyleAction (selected : List DomElement) (mode : StyleMode)
    (styles : List (String × String)) (domIds : List String)
    (changeKind : StyleChangeType) : Action :=
  let filteredSelected :=
    if domIds.length > 0 then
      selected.filter (fun el => domIds.contains el.domId)
    else selected
  Action.updateStyle (filteredSelected.map (fun el =>
    { frameId := el.frameId,
      domId := el.domId,
      oid := match mode with
        | .inst => el.instanceId
        | .root => el.oid,
      change :=
        { updated := styles.map (fun p =>
            (p.1, { value := p.2,
                    ty := match changeKind with
                      | .custom => StyleChangeType.custom
                      | .value => StyleChangeType.value })),
          original := styles.map (fun p =>
            (p.1, { value := getFreshStyleValue el.styles p.1,
                    ty := StyleChangeType.value })) } }))

/-- The empty history state, as constructed by HistoryManager. -/
def stEmpty : HistoryState :=
  { undoStack := [], redoStack := [], tx := .notInTransaction }

/-- A state with one buffered action inside an open transaction. -/
def c3State : HistoryState :=
  { undoStack := [], redoStack := [],
    tx := .inTransaction [.writeCode "buffered"] }

/-- A state with two undone-able actions and an empty redo stack. -/
def c5State : HistoryState :=
  { undoStack := [.writeCode "a", .writeCode "b"], redoStack := [],
    tx := .notInTransaction }

/-- A state with a non-empty redo stack and no open transaction. -/
def c6State : HistoryState :=
  { undoStack := [.writeCode "a"], redoStack := [.writeCode "b"],
    tx := .notInTransaction }

/-- A state with non-empty stacks and an open transaction holding one
buffered action. -/
def c9State : HistoryState :=
  { undoStack := [.writeCode "a"], redoStack := [.writeCode "b"],
    tx := .inTransaction [.writeCode "buffered"] }

/-- A push outside a transaction always leaves an empty redo stack and
appends the action at the end of the undo stack. -/
lemma pushState_notInTx (st : HistoryState) (a : Action)
    (h : st.tx = .notInTransaction) :
    pushState st a =
      { undoStack := st.undoStack ++ [a], redoStack := [],
        tx := .notInTransaction } := by
  obtain ⟨u, r, t⟩ := st
  simp only at h
  subst h
  cases r with
  | nil => simp [pushState]
  | cons x xs => simp [pushState]

/-- Folding pushes outside a transaction appends all actions in order and
leaves the redo stack empty as soon as one action is pushed. -/
lemma foldl_pushState_notInTx (acts : List Action) (st : HistoryState)
    (h : st.tx = .notInTransaction) :
    List.foldl pushState st acts =
      { undoStack := st.undoStack ++ acts,
        redoStack := if acts.isEmpty then st.redoStack else [],
        tx := .notInTransaction } := by
  induction acts generalizing st with
  | nil =>
    obtain ⟨u, r, t⟩ := st
    simp only at h
    subst h
    simp
  | cons a as ih =>
    rw [List.foldl_cons, pushState_notInTx st a h, ih _ rfl]
    simp [ite_self]

/-- C3 counterexample: in a state whose open transaction holds one buffered
action, calling startTransaction again is not a no-op — the buffered
action disappears from the transaction state. -/
theorem c3_counterexample :
    startTransaction c3State ≠ c3State ∧
    c3State.tx = .inTransaction [.writeCode "buffered"] ∧
    (startTransaction c3State).tx = .inTransaction [] := by
  decide

/-- C3 (amended): calling startTransaction while a transaction is open
replaces the buffer with a fresh empty one, so the previously buffered
actions are silently lost — a commit immediately afterwards pushes nothing
onto the undo stack. -/
theorem c3_nested_start_clears_buffer (st : HistoryState) (buf : List Action)
    (_h : st.tx = .inTransaction buf) :
    (startTransaction st).tx = .inTransaction [] ∧
    (commitTransaction (startTransaction st)).undoStack = st.undoStack ∧
    (commitTransaction (startTransaction st)).tx = .notInTransaction := by
  refine ⟨rfl, ?_, ?_⟩ <;> simp [commitTransaction, startTransaction]

/-- C3 witness: the amended statement evaluated on the concrete buffered
state. -/
theorem c3_nested_start_clears_buffer_witness :
    (startTransaction c3State).tx = .inTransaction [] ∧
    (commitTransaction (startTransaction c3State)).undoStack = c3State.undoStack ∧
    (commitTransaction (startTransaction c3State)).tx = .notInTransaction :=
  c3_nested_start_clears_buffer c3State [.writeCode "buffered"] rfl

/-- C5 counterexample: with undo stack of length two and an empty redo stack,
undo leaves one entry on each stack, so the claimed chained equality
(undo-before = undo-after + 1 = redo-after) fails at its second step. -/
theorem c5_counterexample :
    ¬ (c5State.undoStack.length = (undoState c5State).1.undoStack.length + 1 ∧
       (undoState c5State).1.undoStack.length + 1 =
         (undoState c5State).1.redoStack.length) := by
  decide

/-- C5 (amended): outside a transaction, undo on a non-empty undo stack
removes exactly one undo entry and adds exactly one redo entry; redo on a
non-empty redo stack does the symmetric thing. -/
theorem c5_undo_redo_stack_lengths (st : HistoryState)
    (h : st.tx = .notInTransaction) :
    (st.undoStack ≠ [] →
      (undoState st).1.undoStack.length + 1 = st.undoStack.length ∧
      (undoState st).1.redoStack.length = st.redoStack.length + 1) ∧
    (st.redoStack ≠ [] →
      (redoState st).1.redoStack.length + 1 = st.redoStack.length ∧
      (redoState st).1.undoStack.length = st.undoStack.length + 1) := by
  constructor
  · intro hne
    have hpos : 0 < st.undoStack.length := List.length_pos.mpr hne
    obtain ⟨top, htop⟩ : ∃ a, st.undoStack.getLast? = some a := by
      cases e : st.undoStack.getLast? with
      | none => exact absurd (List.getLast?_eq_none_iff.mp e) hne
      | some a => exact ⟨a, rfl⟩
    simp [undoState, h, htop, List.length_dropLast]
    omega
  · intro hne
    obtain ⟨top, htop⟩ : ∃ a, st.redoStack.getLast? = some a := by
      cases e : st.redoStack.getLast? with
      | none => exact absurd (List.getLast?_eq_none_iff.mp e) hne
      | some a => exact ⟨a, rfl⟩
    have hpos : 0 < st.redoStack.length := List.length_pos.mpr hne
    simp [redoState, h, htop, List.length_dropLast]
    omega

/-- C5 witness: the amended statement evaluated on the concrete two-entry
state. -/
theorem c5_undo_redo_stack_lengths_witness :
    (c5State.undoStack ≠ [] →
      (undoState c5State).1.undoStack.length + 1 = c5State.undoStack.length ∧
      (undoState c5State).1.redoStack.length = c5State.redoStack.length + 1) ∧
    (c5State.redoStack ≠ [] →
      (redoState c5State).1.redoStack.length + 1 = c5State.redoStack.length ∧
      (redoState c5State).1.undoStack.length = c5State.undoStack.length + 1) :=
  c5_undo_redo_stack_lengths c5State rfl

/-- C6: outside a transaction, pushing any action onto a state with a
non-empty redo stack empties the redo stack, and a subsequent redo is a
no-op returning none. -/
theorem c6_push_clears_redo (st : HistoryState) (a : Action)
    (h1 : st.tx = .notInTransaction) (_h2 : st.redoStack ≠ []) :
    (pushState st a).redoStack = [] ∧
    redoState (pushState st a) = (pushState st a, none) := by
  rw [pushState_notInTx st a h1]
  exact ⟨rfl, rfl⟩

/-- C6 witness: evaluated on the concrete state with one redoable action. -/
theorem c6_push_clears_redo_witness :
    (pushState c6State (.writeCode "c")).redoStack = [] ∧
    redoState (pushState c6State (.writeCode "c")) =
      (pushState c6State (.writeCode "c"), none) :=
  c6_push_clears_redo c6State (.writeCode "c") rfl (by decide)

/-- C9: clear empties both stacks but leaves the transaction state intact,
and a commit after the clear still pushes the buffered actions — they end
up, in order, as the whole content of the just-emptied undo stack. -/
theorem c9_clear_keeps_transaction (st : HistoryState) (buf : List Action)
    (h : st.tx = .inTransaction buf) (hne : buf ≠ []) :
    (clearState st).undoStack = [] ∧
    (clearState st).redoStack = [] ∧
    (clearState st).tx = .inTransaction buf ∧
    (commitTransaction (clearState st)).undoStack = buf ∧
    (commitTransaction (clearState st)).tx = .notInTransaction := by
  have hc : clearState st =
      { undoStack := [], redoStack := [], tx := .inTransaction buf } := by
    simp [clearState, h]
  have hlen : ¬ (buf.length = 0) := by
    simpa [List.length_eq_zero] using hne
  rw [hc]
  refine ⟨rfl, rfl, rfl, ?_, ?_⟩ <;>
    simp [commitTransaction, hlen,
      foldl_pushState_notInTx buf
        { undoStack := [], redoStack := [], tx := .notInTransaction } rfl]

/-- C9 witness: evaluated on the concrete state with one buffered action and
non-empty stacks. -/
theorem c9_clear_keeps_transaction_witness :
    (clearState c9State).undoStack = [] ∧
    (clearState c9State).redoStack = [] ∧
    (clearState c9State).tx = .inTransaction [.writeCode "buffered"] ∧
    (commitTransaction (clearState c9State)).undoStack = [.writeCode "buffered"] ∧
    (commitTransaction (clearState c9State)).tx = .notInTransaction :=
  c9_clear_keeps_transaction c9State [.writeCode "buffered"] rfl (by decide)

/-- A snapshot element returned by the gateway of frame f2. -/
def elF2 : DomElement :=
  { frameId := "f2", domId := "d2", oid := none, instanceId := none,
    styles := none }

/-- A snapshot element returned by the gateway of frame f1. -/
def elF1 : DomElement :=
  { frameId := "f1", domId := "d1", oid := none, instanceId := none,
    styles := none }

/-- A gateway whose updateStyle always succeeds with elF2. -/
def fvAlwaysOk : FrameView :=
  { updateStyle := fun _ _ => some elF2,
    removeElement := fun _ => none,
    moveElement := fun _ _ => none }

/-- A gateway on which every mutation primitive fails. -/
def fvFail : FrameView :=
  { updateStyle := fun _ _ => none,
    removeElement := fun _ => none,
    moveElement := fun _ _ => none }

/-- Environment in which only frame f2 exists (and its gateway succeeds);
no design token resolves. -/
def envC1 : Env :=
  { frames := fun fid => if fid = "f2" then some fvAlwaysOk else none,
    getColorByName := fun _ => none }

/-- Environment in which every frame exists but every gateway call fails. -/
def envFail : Env :=
  { frames := fun _ => some fvFail,
    getColorByName := fun _ => none }

/-- A plain literal style change used by the two-target example. -/
def chC1 : StyleRecordChange :=
  { original := [("color", { value := "rgb(0, 0, 0)", ty := .value })],
    updated := [("color", { value := "blue", ty := .value })] }

/-- Target living on the missing frame f1. -/
def tC1a : StyleActionTarget :=
  { frameId := "f1", domId := "d1", oid := none, change := chC1 }

/-- Sibling target living on the healthy frame f2. -/
def tC1b : StyleActionTarget :=
  { frameId := "f2", domId := "d2", oid := none, change := chC1 }

/-- A gateway whose updateStyle always succeeds with elF1. -/
def fvC2 : FrameView :=
  { updateStyle := fun _ _ => some elF1,
    removeElement := fun _ => none,
    moveElement := fun _ _ => none }

/-- Environment with every frame present, a succeeding gateway, and a theme
that resolves the token primary to a hex literal. -/
def envC2 : Env :=
  { frames := fun _ => some fvC2,
    getColorByName := fun s => if s = "primary" then some "#112233" else none }

/-- A target whose updated half carries the symbolic token primary. -/
def tC2 : StyleActionTarget :=
  { frameId := "f1", domId := "d1", oid := none,
    change :=
      { original := [("color", { value := "rgb(0, 0, 0)", ty := .value })],
        updated := [("color", { value := "primary", ty := .custom })] } }

/-- The theme resolver used by the token-conversion witnesses. -/
def resolveC7 : String → Option String :=
  fun s => if s = "primary" then some "#112233" else none

/-- A structural-edit target on frame f1. -/
def tMove : ActionTarget := { frameId := "f1", domId := "d1" }

/-- A second structural-edit target, to sit after a failing one. -/
def tMove2 : ActionTarget := { frameId := "f1", domId := "d9" }

/-- The location payload used by the remove-element example. -/
def locC8 : ActionLocation := { targetDomId := "d0" }

/-- C1 counterexample: with the first target on a missing frame and the
second on a healthy frame whose gateway would succeed, the dispatcher
aborts the whole loop — the sibling target receives no style update and no
snapshot, although its frame exists and its gateway call would have
returned a snapshot. -/
theorem c1_counterexample :
    updateStyleGo envC1 [tC1a, tC1b] = ([tC1a, tC1b], .aborted) ∧
    (envC1.frames tC1b.frameId).isSome = true ∧
    ((envC1.frames tC1b.frameId).map (fun fv =>
      (fv.updateStyle tC1b.domId
        (convertChange envC1.getColorByName tC1b.change)).isSome)) =
      some true := by
  refine ⟨by decide, by decide, by decide⟩

/-- C1 (amended): when the frame lookup fails for a target, updateStyle
returns at once — that target and every remaining sibling target are left
unprocessed and no snapshots are delivered; only a failing gateway call
(none result) is skipped per-target while the remaining siblings are still
processed. -/
theorem c1_frame_missing_vs_gateway_failure (env : Env)
    (t : StyleActionTarget) (ts : List StyleActionTarget) :
    (env.frames t.frameId = none →
      updateStyleGo env (t :: ts) = (t :: ts, .aborted)) ∧
    (∀ fv, env.frames t.frameId = some fv →
      fv.updateStyle t.domId (convertChange env.getColorByName t.change) =
        none →
      updateStyleGo env (t :: ts) =
        ({ t with change := convertChange env.getColorByName t.change } ::
           (updateStyleGo env ts).1,
         (updateStyleGo env ts).2)) := by
  constructor
  · intro h
    simp [updateStyleGo, h]
  · intro fv h1 h2
    simp [updateStyleGo, h1, h2]

/-- C1 witness: both branches of the amended statement evaluated on concrete
environments. -/
theorem c1_frame_missing_vs_gateway_failure_witness :
    updateStyleGo envC1 [tC1a, tC1b] = ([tC1a, tC1b], .aborted) ∧
    updateStyleGo envFail [tC1b] =
      ({ tC1b with change := convertChange envFail.getColorByName tC1b.change } ::
         (updateStyleGo envFail ([] : List StyleActionTarget)).1,
       (updateStyleGo envFail ([] : List StyleActionTarget)).2) :=
  ⟨(c1_frame_missing_vs_gateway_failure envC1 tC1a [tC1b]).1 rfl,
   (c1_frame_missing_vs_gateway_failure envFail tC1b []).2 fvFail rfl rfl⟩

/-- C2 counterexample: after run on an UpdateStyle action whose updated entry
is the resolvable token primary, the action stored on the undo stack is no
longer the pushed value — its updated entry was rewritten in place to the
resolved hex literal. -/
theorem c2_counterexample :
    (pushState stEmpty (.updateStyle [tC2])).undoStack.getLast? =
      some (.updateStyle [tC2]) ∧
    (runUpdateStyleNoTx envC2 stEmpty [tC2]).1.undoStack.getLast? ≠
      some (.updateStyle [tC2]) ∧
    (runUpdateStyleNoTx envC2 stEmpty [tC2]).1.undoStack.getLast? =
      some (.updateStyle [{ tC2 with change :=
        { original := tC2.change.original,
          updated := [("color", { value := "#112233", ty := .value })] } }]) := by
  refine ⟨by decide, by decide, by decide⟩

/-- C2 (amended): dispatching an UpdateStyle action mutates the stored action
in place — after run (no transaction open) the undo-stack top is the
converted target list produced by token resolution, not necessarily the
pushed value; undo and redo themselves move stored actions between the
stacks unchanged and return freshly derived action values. -/
theorem c2_stored_action_mutation (env : Env) (st : HistoryState)
    (ts : List StyleActionTarget) (h : st.tx = .notInTransaction) :
    (runUpdateStyleNoTx env st ts).1.undoStack =
      st.undoStack ++ [Action.updateStyle (updateStyleGo env ts).1] ∧
    (∀ st2 top, st2.tx = .notInTransaction →
      st2.undoStack.getLast? = some top →
      undoState st2 =
        ({ st2 with undoStack := st2.undoStack.dropLast,
                    redoStack := st2.redoStack ++ [top] },
         some (undoAction top))) ∧
    (∀ st2 top, st2.tx = .notInTransaction →
      st2.redoStack.getLast? = some top →
      redoState st2 =
        ({ st2 with redoStack := st2.redoStack.dropLast,
                    undoStack := st2.undoStack ++ [transformRedoAction top] },
         some (transformRedoAction top))) := by
  refine ⟨?_, ?_, ?_⟩
  · simp [runUpdateStyleNoTx, pushState_notInTx st _ h]
  · intro st2 top h2 htop
    simp [undoState, h2, htop]
  · intro st2 top h2 htop
    simp [redoState, h2, htop]

/-- C2 witness: the amended statement evaluated on the concrete token-bearing
action and on concrete states with one undoable and one redoable entry. -/
theorem c2_stored_action_mutation_witness :
    (runUpdateStyleNoTx envC2 stEmpty [tC2]).1.undoStack =
      stEmpty.undoStack ++ [Action.updateStyle (updateStyleGo envC2 [tC2]).1] ∧
    undoState c6State =
      ({ c6State with undoStack := c6State.undoStack.dropLast,
                      redoStack := c6State.redoStack ++ [.writeCode "a"] },
       some (undoAction (.writeCode "a"))) ∧
    redoState c6State =
      ({ c6State with redoStack := c6State.redoStack.dropLast,
                      undoStack := c6State.undoStack ++
                        [transformRedoAction (.writeCode "b")] },
       some (transformRedoAction (.writeCode "b"))) :=
  ⟨(c2_stored_action_mutation envC2 stEmpty [tC2] rfl).1,
   (c2_stored_action_mutation envC2 stEmpty [tC2] rfl).2.1 c6State
     (.writeCode "a") rfl rfl,
   (c2_stored_action_mutation envC2 stEmpty [tC2] rfl).2.2 c6State
     (.writeCode "b") rfl rfl⟩

/-- C7 counterexample: the reclassification branch covers only literal color
prefixes, not length literals — the unresolved Custom entry 10px is passed
through unchanged as Custom, not reclassified to Value. -/
theorem c7_counterexample :
    resolveC7 "10px" = none ∧
    isColorSyntax "10px" = false ∧
    convertEntry resolveC7 { value := "10px", ty := .custom } =
      { value := "10px", ty := StyleChangeType.custom } ∧
    convertEntry resolveC7 { value := "10px", ty := .custom } ≠
      { value := "10px", ty := StyleChangeType.value } := by
  refine ⟨by decide, by decide, by decide, by decide⟩

/-- C7 (amended): a Custom updated entry is rewritten to the resolved literal
when the theme resolver returns a truthy value; an unresolved entry whose
raw string starts with a literal color prefix (hash, rgb or hsl,
case-insensitive) is reclassified Value with the value kept; any other
unresolved entry — length literals included — passes through unchanged as
Custom; and such an entry never prevents the dispatch from completing with
the gateway snapshot. -/
theorem c7_custom_entry_conversion (resolve : String → Option String)
    (v : StyleChange) (hc : v.ty = .custom) :
    (∀ res, resolve v.value = some res → res ≠ "" →
      convertEntry resolve v = { value := res, ty := .value }) ∧
    (resolve v.value = none → isColorSyntax v.value = true →
      convertEntry resolve v = { value := v.value, ty := .value }) ∧
    (resolve v.value = none → isColorSyntax v.value = false →
      convertEntry resolve v = v) ∧
    (∀ (env : Env) (t : StyleActionTarget) (fv : FrameView) (el : DomElement),
      env.frames t.frameId = some fv →
      (∀ d c, fv.updateStyle d c = some el) →
      (updateStyleGo env [t]).2 = .completed [el]) := by
  refine ⟨?_, ?_, ?_, ?_⟩
  · intro res h1 h2
    simp [convertEntry, hc, h1, h2]
  · intro h1 h2
    simp [convertEntry, hc, h1, h2]
  · intro h1 h2
    simp [convertEntry, hc, h1, h2]
  · intro env t fv el h1 h2
    simp [updateStyleGo, h1, h2]

/-- C7 witness: the three conversion cases and the completion case evaluated
on concrete entries and environment. -/
theorem c7_custom_entry_conversion_witness :
    convertEntry resolveC7 { value := "primary", ty := .custom } =
      { value := "#112233", ty := .value } ∧
    convertEntry resolveC7 { value := "#abc", ty := .custom } =
      { value := "#abc", ty := .value } ∧
    convertEntry resolveC7 { value := "totally-unknown", ty := .custom } =
      { value := "totally-unknown", ty := .custom } ∧
    (updateStyleGo envC2 [tC2]).2 = .completed [elF1] :=
  ⟨(c7_custom_entry_conversion resolveC7
      { value := "primary", ty := .custom } rfl).1 "#112233" rfl (by decide),
   (c7_custom_entry_conversion resolveC7
      { value := "#abc", ty := .custom } rfl).2.1 rfl (by decide),
   (c7_custom_entry_conversion resolveC7
      { value := "totally-unknown", ty := .custom } rfl).2.2.1 rfl (by decide),
   (c7_custom_entry_conversion resolveC7
      { value := "primary", ty := .custom } rfl).2.2.2 envC2 tC2 fvC2 elF1
     rfl (fun _ _ => rfl)⟩

/-- C8: for move-element and remove-element, a failing gateway call on a
target ends the action — no later target appears in the call trace — and
the failed target contributes no snapshot. -/
theorem c8_structural_failure_stops_action (env : Env) (t : ActionTarget)
    (ts : List ActionTarget) (fv : FrameView) (index : Nat)
    (loc : ActionLocation) (h : env.frames t.frameId = some fv) :
    (fv.moveElement t.domId index = none →
      moveElementGo env index (t :: ts) = [(t.domId, none)] ∧
      traceSnapshots (moveElementGo env index (t :: ts)) = []) ∧
    (fv.removeElement loc = none →
      removeElementGo env loc (t :: ts) = [(t.domId, none)] ∧
      traceSnapshots (removeElementGo env loc (t :: ts)) = []) := by
  constructor
  · intro hg
    have he : moveElementGo env index (t :: ts) = [(t.domId, none)] := by
      simp [moveElementGo, h, hg]
    exact ⟨he, by rw [he]; rfl⟩
  · intro hg
    have he : removeElementGo env loc (t :: ts) = [(t.domId, none)] := by
      simp [removeElementGo, h, hg]
    exact ⟨he, by rw [he]; rfl⟩

/-- C8 witness: both structural edits evaluated on a concrete environment
whose gateway fails, with a second target waiting behind the failing one. -/
theorem c8_structural_failure_stops_action_witness :
    (moveElementGo envFail 0 [tMove, tMove2] = [("d1", none)] ∧
      traceSnapshots (moveElementGo envFail 0 [tMove, tMove2]) = []) ∧
    (removeElementGo envFail locC8 [tMove, tMove2] = [("d1", none)] ∧
      traceSnapshots (removeElementGo envFail locC8 [tMove, tMove2]) = []) :=
  ⟨(c8_structural_failure_stops_action envFail tMove [tMove2] fvFail 0 locC8
      rfl).1 rfl,
   (c8_structural_failure_stops_action envFail tMove [tMove2] fvFail 0 locC8
      rfl).2 rfl⟩

/-- The style targets carried by an action (empty for non-style variants). -/
def styleTargetsOf : Action → List StyleActionTarget
  | .updateStyle ts => ts
  | _ => []

/-- A selected element with no style information at all. -/
def el10 : DomElement :=
  { frameId := "f1", domId := "d1", oid := some "o1", instanceId := none,
    styles := none }

/-- The target getUpdateStyleAction builds for el10 when asked to set width
to 100px as a literal: the original half falls back to the per-property
default auto. -/
def t10 : StyleActionTarget :=
  { frameId := "f1", domId := "d1", oid := some "o1",
    change :=
      { updated := [("width", { value := "100px", ty := .value })],
        original := [("width", { value := "auto", ty := .value })] } }

/-- The default table fallback never yields the empty string. -/
lemma getDefaultStyleValue_ne_empty (s : String) :
    getDefaultStyleValue s ≠ "" := by
  unfold getDefaultStyleValue
  cases h : defaultStyleValues.lookup s with
  | none => decide
  | some v =>
    by_cases hv : v = ""
    · simp [hv]
    · simp [hv]

/-- The fallback step shared by getFreshStyleValue: absent or empty current
values go to the default, which is never empty. -/
lemma freshFallback_ne_empty (cv : Option String) (s : String) :
    (match cv with
     | none => getDefaultStyleValue s
     | some v => if v = "" then getDefaultStyleValue s else v) ≠ "" := by
  cases cv with
  | none => exact getDefaultStyleValue_ne_empty s
  | some v =>
    by_cases hv : v = ""
    · simpa [hv] using getDefaultStyleValue_ne_empty s
    · simp [hv]

/-- getFreshStyleValue never returns the empty string. -/
lemma getFreshStyleValue_ne_empty (styles : Option DomElementStyles)
    (s : String) : getFreshStyleValue styles s ≠ "" := by
  unfold getFreshStyleValue
  exact freshFallback_ne_empty _ s

/-- C10: every entry of the original half of an action built by
getUpdateStyleAction is tagged Value with a non-empty value string; an
element with no style data at all gets the synthesized per-property
default, which is either a table entry or the string initial, never
empty. -/
theorem c10_original_half_literal_nonempty (selected : List DomElement)
    (mode : StyleMode) (styles : List (String × String))
    (domIds : List String) (kind : StyleChangeType) :
    (∀ t ∈ styleTargetsOf
        (getUpdateStyleAction selected mode styles domIds kind),
      ∀ p ∈ t.change.original,
        (p.2).ty = .value ∧ (p.2).value ≠ "") ∧
    (∀ s, getFreshStyleValue none s = getDefaultStyleValue s) ∧
    (∀ s, getDefaultStyleValue s = "initial" ∨
      defaultStyleValues.lookup s = some (getDefaultStyleValue s)) ∧
    (∀ s, getDefaultStyleValue s ≠ "") := by
  refine ⟨?_, ?_, ?_, ?_⟩
  · intro t ht p hp
    simp only [getUpdateStyleAction, styleTargetsOf, List.mem_map] at ht
    obtain ⟨el, hel, rfl⟩ := ht
    simp only [List.mem_map] at hp
    obtain ⟨q, hq, rfl⟩ := hp
    exact ⟨rfl, getFreshStyleValue_ne_empty el.styles q.1⟩
  · intro s
    rfl
  · intro s
    unfold getDefaultStyleValue
    cases h : defaultStyleValues.lookup s with
    | none => exact Or.inl rfl
    | some v =>
      by_cases hv : v = ""
      · simp [hv]
      · simp [hv]
  · exact getDefaultStyleValue_ne_empty

/-- C10 witness: the single built target for el10 has its original width
entry tagged Value with the non-empty default auto. -/
theorem c10_original_half_literal_nonempty_witness :
    (("width", { value := "auto", ty := StyleChangeType.value }) :
        String × StyleChange).2.ty = StyleChangeType.value ∧
    (("width", { value := "auto", ty := StyleChangeType.value }) :
        String × StyleChange).2.value ≠ "" :=
  (c10_original_half_literal_nonempty [el10] .root [("width", "100px")] []
      .value).1 t10 (by decide)
    ("width", { value := "auto", ty := StyleChangeType.value }) (by decide)

/-- A single-target update-style action on the given target key. -/
def mkStyleAct (fid did : String) (oid : Option String)
    (c : StyleRecordChange) : Action :=
  Action.updateStyle [{ frameId := fid, domId := did, oid := oid, change := c }]

/-- The updated half of the last change of a sequence (falling back to the
first change when the sequence is empty). -/
def lastUpdated (c : StyleRecordChange) (cs : List StyleRecordChange) :
    List (String × StyleChange) :=
  match cs.getLast? with
  | some c2 => c2.updated
  | none => c.updated

/-- First style change of the coalescing example. -/
def chW1 : StyleRecordChange :=
  { original := [("color", { value := "rgb(0, 0, 0)", ty := .value })],
    updated := [("color", { value := "red", ty := .value })] }

/-- Second style change of the coalescing example. -/
def chW2 : StyleRecordChange :=
  { original := [("color", { value := "red", ty := .value })],
    updated := [("color", { value := "blue", ty := .value })] }

/-- Two consecutive single-target style actions on the same key merge into
one action keeping the first original half and the second updated half. -/
lemma mergeUpdateStyle_same_key (fid did : String) (oid : Option String)
    (c1 c2 : StyleRecordChange) :
    mergeUpdateStyle (mkStyleAct fid did oid c1) (mkStyleAct fid did oid c2) =
      some (mkStyleAct fid did oid
        { original := c1.original, updated := c2.updated }) := by
  simp [mergeUpdateStyle, mkStyleAct, targetKey]

/-- Single-target style actions on different keys do not merge. -/
lemma mergeUpdateStyle_diff_key (f1 d1 f2 d2 : String) (o1 o2 : Option String)
    (c1 c2 : StyleRecordChange) (hk : ¬ ((f1, d1, o1) = (f2, d2, o2))) :
    mergeUpdateStyle (mkStyleAct f1 d1 o1 c1) (mkStyleAct f2 d2 o2 c2) =
      none := by
  simp [mergeUpdateStyle, mkStyleAct, targetKey, hk]

/-- A push inside a transaction only rewrites the buffer through
updateTransactionActions. -/
lemma pushState_inTx (st : HistoryState) (B : List Action) (a : Action)
    (h : st.tx = .inTransaction B) :
    pushState st a =
      { st with tx := .inTransaction (updateTransactionActions B a) } := by
  obtain ⟨u, r, t⟩ := st
  simp only at h
  subst h
  simp [pushState]

/-- Moving the head change into the accumulator commutes with lastUpdated. -/
lemma lastUpdated_cons (c c2 : StyleRecordChange)
    (cs : List StyleRecordChange) :
    lastUpdated c (c2 :: cs) =
      lastUpdated { original := c.original, updated := c2.updated } cs := by
  cases cs with
  | nil => simp [lastUpdated]
  | cons c3 cs =>
    unfold lastUpdated
    rw [List.getLast?_cons_cons]
    cases e : (c3 :: cs).getLast? with
    | none => exact absurd (List.getLast?_eq_none_iff.mp e) (by simp)
    | some c4 => rfl

/-- Folding same-key single-target style pushes over a buffer already holding
one such action keeps the buffer a singleton: the original half of the
first action, the updated half of the last. -/
lemma foldl_pushState_sameKey (fid did : String) (oid : Option String)
    (cs : List StyleRecordChange) (c : StyleRecordChange) (st : HistoryState)
    (h : st.tx = .inTransaction [mkStyleAct fid did oid c]) :
    List.foldl pushState st (cs.map (mkStyleAct fid did oid)) =
      { st with tx := .inTransaction [mkStyleAct fid did oid
          { original := c.original, updated := lastUpdated c cs }] } := by
  induction cs generalizing c st with
  | nil =>
    obtain ⟨u, r, t⟩ := st
    simp only at h
    subst h
    simp [lastUpdated]
  | cons c2 cs ih =>
    rw [List.map_cons, List.foldl_cons, pushState_inTx st _ _ h]
    have hupd : updateTransactionActions [mkStyleAct fid did oid c]
        (mkStyleAct fid did oid c2) =
        [mkStyleAct fid did oid
          { original := c.original, updated := c2.updated }] := by
      simp [updateTransactionActions, mergeUpdateStyle_same_key]
    rw [hupd, ih { original := c.original, updated := c2.updated } _ rfl,
      lastUpdated_cons]

/-- Folding single-target style pushes whose adjacent keys differ appends
each one to the buffer: no merging happens. -/
lemma foldl_pushState_diffKeys
    (ps : List ((String × String × Option String) × StyleRecordChange))
    (st : HistoryState) (B : List Action)
    (h : st.tx = .inTransaction B)
    (hchain : List.Chain' (fun p q => p.1 ≠ q.1) ps)
    (hlast : B = [] ∨ ∃ k0 c0,
      B.getLast? = some (mkStyleAct k0.1 k0.2.1 k0.2.2 c0) ∧
      ∀ p ∈ ps.head?, ¬ (k0 = p.1)) :
    List.foldl pushState st
        (ps.map (fun p => mkStyleAct p.1.1 p.1.2.1 p.1.2.2 p.2)) =
      { st with tx := .inTransaction (B ++
          ps.map (fun p => mkStyleAct p.1.1 p.1.2.1 p.1.2.2 p.2)) } := by
  induction ps generalizing st B with
  | nil =>
    obtain ⟨u, r, t⟩ := st
    simp only at h
    subst h
    simp
  | cons p ps ih =>
    rw [List.map_cons, List.foldl_cons, pushState_inTx st _ _ h]
    have hupd : updateTransactionActions B
        (mkStyleAct p.1.1 p.1.2.1 p.1.2.2 p.2) =
        B ++ [mkStyleAct p.1.1 p.1.2.1 p.1.2.2 p.2] := by
      rcases hlast with hB | ⟨k0, c0, hg, hk⟩
      · subst hB
        simp [updateTransactionActions]
      · have hne : ¬ (k0 = p.1) := hk p rfl
        have hkk : ¬ ((k0.1, k0.2.1, k0.2.2) =
            (p.1.1, p.1.2.1, p.1.2.2)) := by
          simpa using hne
        simp [updateTransactionActions, hg,
          mergeUpdateStyle_diff_key _ _ _ _ _ _ _ _ hkk]
    rw [hupd]
    rw [ih _ (B ++ [mkStyleAct p.1.1 p.1.2.1 p.1.2.2 p.2]) rfl
      (List.chain'_cons'.mp hchain).2
      (Or.inr ⟨p.1, p.2, by rw [List.getLast?_concat],
        fun q hq => (List.chain'_cons'.mp hchain).1 q hq⟩)]
    simp

/-- Committing a transaction with a non-empty buffer resets the transaction,
appends all buffered actions in order and leaves the redo stack empty. -/
lemma commitTransaction_inTx (st : HistoryState) (acts : List Action)
    (h : st.tx = .inTransaction acts) (hne : acts ≠ []) :
    commitTransaction st =
      { undoStack := st.undoStack ++ acts, redoStack := [],
        tx := .notInTransaction } := by
  obtain ⟨u, r, t⟩ := st
  simp only at h
  subst h
  cases acts with
  | nil => exact absurd rfl hne
  | cons a as =>
    simp [commitTransaction,
      foldl_pushState_notInTx (a :: as)
        { undoStack := u, redoStack := r, tx := .notInTransaction } rfl]

/-- C4: buffering one or more same-target UpdateStyle actions inside a
transaction and committing yields exactly one undo entry whose original
half is the first buffered original and whose updated half is the last
buffered updated; buffering actions on pairwise-distinct targets yields
one undo entry per action, in order. -/
theorem c4_transaction_coalescing (st : HistoryState)
    (fid did : String) (oid : Option String)
    (c : StyleRecordChange) (rest : List StyleRecordChange)
    (ps : List ((String × String × Option String) × StyleRecordChange))
    (hps : ps ≠ [])
    (hdist : ps.Pairwise (fun p q => p.1 ≠ q.1)) :
    (commitTransaction (List.foldl pushState (startTransaction st)
        ((c :: rest).map (mkStyleAct fid did oid)))).undoStack =
      st.undoStack ++ [mkStyleAct fid did oid
        { original := c.original, updated := lastUpdated c rest }] ∧
    (commitTransaction (List.foldl pushState (startTransaction st)
        (ps.map (fun p => mkStyleAct p.1.1 p.1.2.1 p.1.2.2 p.2)))).undoStack =
      st.undoStack ++ ps.map (fun p => mkStyleAct p.1.1 p.1.2.1 p.1.2.2 p.2) ∧
    (commitTransaction (List.foldl pushState (startTransaction st)
        (ps.map (fun p =>
          mkStyleAct p.1.1 p.1.2.1 p.1.2.2 p.2)))).undoStack.length =
      st.undoStack.length + ps.length := by
  have hsame : List.foldl pushState (startTransaction st)
      ((c :: rest).map (mkStyleAct fid did oid)) =
      { st with tx := .inTransaction [mkStyleAct fid did oid
          { original := c.original, updated := lastUpdated c rest }] } := by
    rw [List.map_cons, List.foldl_cons,
      pushState_inTx (startTransaction st) [] _ rfl]
    have hupd : updateTransactionActions [] (mkStyleAct fid did oid c) =
        [mkStyleAct fid did oid c] := by
      simp [updateTransactionActions]
    rw [hupd, foldl_pushState_sameKey fid did oid rest c _ rfl]
    cases c
    rfl
  have hdiff : List.foldl pushState (startTransaction st)
      (ps.map (fun p => mkStyleAct p.1.1 p.1.2.1 p.1.2.2 p.2)) =
      { st with tx := .inTransaction (ps.map (fun p =>
          mkStyleAct p.1.1 p.1.2.1 p.1.2.2 p.2)) } := by
    have := foldl_pushState_diffKeys ps (startTransaction st) []
      rfl hdist.chain' (Or.inl rfl)
    simpa using this
  have hpsne : ps.map (fun p => mkStyleAct p.1.1 p.1.2.1 p.1.2.2 p.2) ≠ [] := by
    simpa using hps
  refine ⟨?_, ?_, ?_⟩
  · rw [hsame, commitTransaction_inTx _ _ rfl (by simp)]
  · rw [hdiff, commitTransaction_inTx _ _ rfl hpsne]
  · rw [hdiff, commitTransaction_inTx _ _ rfl hpsne]
    simp

/-- C4 witness: two same-target changes coalesce into one entry keeping the
first original and last updated halves; two distinct-target changes yield
two entries. -/
theorem c4_transaction_coalescing_witness :
    (commitTransaction (List.foldl pushState (startTransaction stEmpty)
        (([chW1, chW2]).map (mkStyleAct "f1" "d1" none)))).undoStack =
      stEmpty.undoStack ++ [mkStyleAct "f1" "d1" none
        { original := chW1.original, updated := lastUpdated chW1 [chW2] }] ∧
    (commitTransaction (List.foldl pushState (startTransaction stEmpty)
        (([(("f1", "d1", (none : Option String)), chW1),
           (("f2", "d2", (none : Option String)), chW2)]).map
          (fun p => mkStyleAct p.1.1 p.1.2.1 p.1.2.2 p.2)))).undoStack =
      stEmpty.undoStack ++
        ([(("f1", "d1", (none : Option String)), chW1),
          (("f2", "d2", (none : Option String)), chW2)]).map
          (fun p => mkStyleAct p.1.1 p.1.2.1 p.1.2.2 p.2) ∧
    (commitTransaction (List.foldl pushState (startTransaction stEmpty)
        (([(("f1", "d1", (none : Option String)), chW1),
           (("f2", "d2", (none : Option String)), chW2)]).map
          (fun p =>
            mkStyleAct p.1.1 p.1.2.1 p.1.2.2 p.2)))).undoStack.length =
      stEmpty.undoStack.length + 2 :=
  c4_transaction_coalescing stEmpty "f1" "d1" none chW1 [chW2]
    [(("f1", "d1", none), chW1), (("f2", "d2", none), chW2)]
    (by decide) (by decide)

end Onlook
